import Mathlib

/-!
# Verification of the PhysicsFS VPK archiver directory decoder

Shallow embedding of `src/physfs_archiver_vpk.c`: byte streams are lists
of naturals (one per byte, values < 256 in well-formed inputs), the
thread-local PhysicsFS error state is modelled by an `Except` error code,
and each C function becomes a Lean function consuming a prefix of the
stream and returning the remainder.

The C file contains two distinct (name-colliding) definitions of
`vpkLoadEntries`: a tree-walking loader (lines 55-109) and a flat
fixed-record loader (lines 111-128).  They are embedded here as
`vpkLoadEntriesTree` / `vpkLoadEntriesDirs` / `vpkLoadEntriesNames`
(one function per nesting level of the three nested loops) and
`vpkLoadEntriesFlat` respectively, and `VPK_openArchive` is embedded
twice, once per loader, as `VPK_openArchiveTree` and `VPK_openArchiveFlat`,
both sharing the header phase `vpkCheckHeader` (source lines 140-162).
-/

namespace VPK

/-- PhysicsFS error codes reachable from this archiver.  `ioError` stands
for any error set by a failing `__PHYSFS_readAll` or `io->seek` and passed
through by `BAIL_IF_ERRPASS`; `bufferTooSmall` tags the `return 0` at line
52 of `vpkReadString` (capacity exhausted; the C leaves the thread-local
error state unchanged there, so we give it its own tag to keep the failure
distinguishable). -/
inductive VpkErr where
  | readOnly
  | unsupported
  | corrupt
  | ioError
  | bufferTooSmall
  deriving DecidableEq, Repr

/-- `#define VPK_SIG 0x55AA1234` (line 35). -/
def VPK_SIG : Nat := 0x55AA1234

/-- Little-endian value of a byte list (first byte is least significant).
Models what `PHYSFS_swapULE32` / `PHYSFS_swapULE16` produce from the raw
bytes on any host (the tree loader reads its record fields without a swap,
i.e. host-endian in C; we model the little-endian host, which is also the
on-disk format). -/
def leVal : List Nat → Nat
  | [] => 0
  | b :: bs => b + 256 * leVal bs

/-- Bytes `off, off+1, ..., off+n-1` of a stream. -/
def byteSlice (s : List Nat) (off n : Nat) : List Nat :=
  (s.drop off).take n

/-- `__PHYSFS_readAll(io, buf, n)`: read exactly `n` bytes or fail
(short reads are failures). -/
def readBytes (n : Nat) (s : List Nat) : Except VpkErr (List Nat × List Nat) :=
  if n ≤ s.length then .ok (s.take n, s.drop n) else .error .ioError

/-- `__PHYSFS_readAll` of an `n`-byte integer field, decoded little-endian. -/
def readLE (n : Nat) (s : List Nat) : Except VpkErr (Nat × List Nat) :=
  if n ≤ s.length then .ok (leVal (s.take n), s.drop n) else .error .ioError

/-- `vpkReadString` (lines 37-53): read bytes one at a time into a buffer
of capacity `maxlen` until a null byte is read.  On success the C function
returns the constant `1`; we return that value together with the content
bytes read before the null and the remaining stream.  Capacity exhaustion
(`pos` reaches `maxlen` with no null read) is the `return 0` at line 52. -/
def vpkReadString : Nat → List Nat → Except VpkErr (Nat × List Nat × List Nat)
  | 0, _ => .error .bufferTooSmall
  | _ + 1, [] => .error .ioError
  | maxlen + 1, c :: rest =>
    if c = 0 then .ok (1, [], rest)
    else
      match vpkReadString maxlen rest with
      | .ok (r, cs, s) => .ok (r, c :: cs, s)
      | .error e => .error e

/-- Line 94: `snprintf(path, sizeof(path), "%s%c%s%c%s", dir, '/', name, '.', ext)`.
47 and 46 are the ASCII codes of the forward slash and the dot.  The 1024-byte
destination can never truncate (each segment is at most 255 bytes), so plain
concatenation is exact.  In the tree loader the result is computed and then
never used. -/
def vpkAssemblePath (dir name ext : List Nat) : List Nat :=
  dir ++ [47] ++ name ++ [46] ++ ext

/-- Bytes of a Lean string literal, for readable statements about paths. -/
def strBytes (s : String) : List Nat :=
  s.data.map Char.toNat

/-- One registered entry of the generic unpacking layer (`UNPK_addEntry`
receives the path as a C string plus position and size; the other
`UNPK_addEntry` arguments in this file are the constants
`isdir = 0, ctime = -1, mtime = -1`). -/
structure VpkEntry where
  path : List Nat
  pos : Nat
  size : Nat
  deriving DecidableEq, Repr

/-- A `char[56]` buffer handed to `UNPK_addEntry` as a C string: the bytes
up to (excluding) the first null. -/
def cString (bs : List Nat) : List Nat :=
  bs.takeWhile (· ≠ 0)

/-- Innermost loop of the tree-walking `vpkLoadEntries` (lines 85-104):
read file base names until an empty one pops the level; for each name,
assemble the path (computed and discarded, exactly as in the source, which
never registers it), read the 18-byte record field by field, and check the
terminator (`BAIL_IF(entry.terminator != 0xFFFF, PHYSFS_ERR_CORRUPT, 0)`,
line 103).  `fuel` bounds the number of loop iterations (the C loop is
bounded by the stream running out); `none` means the fuel was too small and
never arises once `fuel` exceeds the stream length.  On success the
remaining stream is returned. -/
def vpkLoadEntriesNames (ext dir : List Nat) :
    Nat → List Nat → Option (Except VpkErr (List Nat))
  | 0, _ => none
  | fuel + 1, s =>
    match vpkReadString 256 s with
    | .error e => some (.error e)
    | .ok (_, name, s1) =>
      if name = [] then some (.ok s1)
      else
        let _path := vpkAssemblePath dir name ext
        match readLE 4 s1 with
        | .error e => some (.error e)
        | .ok (_crc, s2) =>
          match readLE 2 s2 with
          | .error e => some (.error e)
          | .ok (_preload, s3) =>
            match readLE 2 s3 with
            | .error e => some (.error e)
            | .ok (_archive, s4) =>
              match readLE 4 s4 with
              | .error e => some (.error e)
              | .ok (_offset, s5) =>
                match readLE 4 s5 with
                | .error e => some (.error e)
                | .ok (_size, s6) =>
                  match readLE 2 s6 with
                  | .error e => some (.error e)
                  | .ok (terminator, s7) =>
                    if terminator ≠ 0xFFFF then some (.error .corrupt)
                    else vpkLoadEntriesNames ext dir fuel s7

/-- Middle loop of the tree-walking `vpkLoadEntries` (lines 78-105): read
directory strings until an empty one pops the level; for each directory run
the name loop. -/
def vpkLoadEntriesDirs (ext : List Nat) :
    Nat → List Nat → Option (Except VpkErr (List Nat))
  | 0, _ => none
  | fuel + 1, s =>
    match vpkReadString 256 s with
    | .error e => some (.error e)
    | .ok (_, dir, s1) =>
      if dir = [] then some (.ok s1)
      else
        match vpkLoadEntriesNames ext dir fuel s1 with
        | none => none
        | some (.error e) => some (.error e)
        | some (.ok s2) => vpkLoadEntriesDirs ext fuel s2

/-- Outermost loop of the tree-walking `vpkLoadEntries` (lines 71-106,
lines 55-109 overall): read extension strings until an empty one ends the
walk (`return 1`, line 108).  The `count` parameter of the C function is
unused by this variant and omitted.  Note this loader never calls
`UNPK_addEntry`: it registers nothing. -/
def vpkLoadEntriesTree : Nat → List Nat → Option (Except VpkErr (List Nat))
  | 0, _ => none
  | fuel + 1, s =>
    match vpkReadString 256 s with
    | .error e => some (.error e)
    | .ok (_, ext, s1) =>
      if ext = [] then some (.ok s1)
      else
        match vpkLoadEntriesDirs ext fuel s1 with
        | none => none
        | some (.error e) => some (.error e)
        | some (.ok s2) => vpkLoadEntriesTree fuel s2

/-- Flat fixed-record `vpkLoadEntries` (lines 111-128): for `i` from 0 to
`count - 1`, read a 56-byte name field, a 4-byte little-endian position and
a 4-byte little-endian size, and register the entry with `UNPK_addEntry`
(modelled by appending to the accumulated registry `acc`; the name buffer
is consumed as a C string). -/
def vpkLoadEntriesFlat :
    Nat → List Nat → List VpkEntry → Except VpkErr (List VpkEntry × List Nat)
  | 0, s, acc => .ok (acc, s)
  | count + 1, s, acc =>
    match readBytes 56 s with
    | .error e => .error e
    | .ok (name, s1) =>
      match readLE 4 s1 with
      | .error e => .error e
      | .ok (pos, s2) =>
        match readLE 4 s2 with
        | .error e => .error e
        | .ok (size, s3) =>
          vpkLoadEntriesFlat count s3 (acc ++ [⟨cString name, pos, size⟩])

/-- Header phase of `VPK_openArchive` (lines 140-162): reject write intent
(`BAIL_IF(forWriting, PHYSFS_ERR_READ_ONLY, NULL)`, line 140, before any
read), read and check the 4-byte little-endian magic (lines 142-145), read
and check the 4-byte version (lines 147-150), set `*claimed = 1` (line 152,
only now), read the directory-table offset and the directory byte length
(lines 154-158), require the length to be a multiple of 64 and divide
(lines 161-162).  Returns the final value of `*claimed` (initially 0 in the
dispatcher) together with either the error or the pair
(table offset, record count). -/
def vpkCheckHeader (forWriting : Bool) (s : List Nat) :
    Bool × Except VpkErr (Nat × Nat) :=
  if forWriting then (false, .error .readOnly)
  else
    match readLE 4 s with
    | .error e => (false, .error e)
    | .ok (magic, s1) =>
      if magic ≠ VPK_SIG then (false, .error .unsupported)
      else
        match readLE 4 s1 with
        | .error e => (false, .error e)
        | .ok (version, s2) =>
          if version ≠ 1 ∧ version ≠ 2 then (false, .error .unsupported)
          else
            match readLE 4 s2 with
            | .error e => (true, .error e)
            | .ok (pos, s3) =>
              match readLE 4 s3 with
              | .error e => (true, .error e)
              | .ok (count, _) =>
                if count % 64 ≠ 0 then (true, .error .corrupt)
                else (true, .ok (pos, count / 64))

/-- `VPK_openArchive` (lines 131-177) linked against the tree-walking
`vpkLoadEntries`: header phase, `io->seek(io, pos)` (line 164, modelled as
failing past the end of the stream), `UNPK_openArchive` creating a fresh
empty registry (line 167), then entry loading; on loader failure the
registry is abandoned (`UNPK_abandonArchive`, line 172) and no handle is
returned.  The tree loader registers nothing, so a successful open returns
the registry still empty.  `none` only reports insufficient fuel. -/
def VPK_openArchiveTree (forWriting : Bool) (fuel : Nat) (s : List Nat) :
    Bool × Option (Except VpkErr (List VpkEntry)) :=
  match vpkCheckHeader forWriting s with
  | (claimed, .error e) => (claimed, some (.error e))
  | (claimed, .ok (pos, _count)) =>
    if pos ≤ s.length then
      let unpkarc : List VpkEntry := []
      match vpkLoadEntriesTree fuel (s.drop pos) with
      | none => (claimed, none)
      | some (.error e) => (claimed, some (.error e))
      | some (.ok _rest) => (claimed, some (.ok unpkarc))
    else (claimed, some (.error .ioError))

/-- `VPK_openArchive` (lines 131-177) linked against the flat fixed-record
`vpkLoadEntries`: identical header phase and seek, then `count` records are
loaded into the fresh registry; on loader failure the partially built
registry is abandoned (line 172) and only the error is returned. -/
def VPK_openArchiveFlat (forWriting : Bool) (s : List Nat) :
    Bool × Except VpkErr (List VpkEntry) :=
  match vpkCheckHeader forWriting s with
  | (claimed, .error e) => (claimed, .error e)
  | (claimed, .ok (pos, count)) =>
    if pos ≤ s.length then
      match vpkLoadEntriesFlat count (s.drop pos) [] with
      | .error e => (claimed, .error e)
      | .ok (entries, _rest) => (claimed, .ok entries)
    else (claimed, .error .ioError)

/-- Entry `i` of the flat directory layout inside stream `s`: a 64-byte
record at offset `64*i` holding a 56-byte name field (used as a C string)
then little-endian position and size. -/
def vpkFlatRecordAt (s : List Nat) (i : Nat) : VpkEntry :=
  { path := cString (byteSlice s (64 * i) 56)
  , pos := leVal (byteSlice s (64 * i + 56) 4)
  , size := leVal (byteSlice s (64 * i + 60) 4) }

/-- Closed form of the registry the flat loader builds: one record per
index, in stream order. -/
def vpkFlatSpec (count : Nat) (s : List Nat) : List VpkEntry :=
  (List.range count).map (vpkFlatRecordAt s)

end VPK

open VPK

/-- Inversion for a successful bounded string read: the C function returned
the constant 1, the stream begins with the null-free content followed by
the null terminator, and the content fits strictly inside the buffer. -/
theorem vpkReadString_ok (maxlen : Nat) (s : List Nat) (r : Nat)
    (cs rest : List Nat) (h : vpkReadString maxlen s = .ok (r, cs, rest)) :
    r = 1 ∧ s = cs ++ 0 :: rest ∧ 0 ∉ cs ∧ cs.length < maxlen := by
  induction maxlen generalizing s r cs rest with
  | zero => simp [vpkReadString] at h
  | succ m ih =>
    cases s with
    | nil => simp [vpkReadString] at h
    | cons c t =>
      by_cases hc : c = 0
      · subst hc
        simp [vpkReadString] at h
        obtain ⟨h1, h2, h3⟩ := h
        subst h1; subst h2; subst h3
        simp
      · rcases heq : vpkReadString m t with e | ⟨r1, cs1, s1⟩
        · simp [vpkReadString, hc, heq] at h
        · simp [vpkReadString, hc, heq] at h
          obtain ⟨h1, h2, h3⟩ := h
          obtain ⟨g1, g2, g3, g4⟩ := ih t r1 cs1 s1 heq
          subst h1; subst h3; subst g1; subst g2
          refine ⟨rfl, by simp [← h2], ?_, ?_⟩
          · rw [← h2]; simp
            exact ⟨fun h => hc h.symm, g3⟩
          · rw [← h2]; simp; omega

/-- Running the bounded string reader on a stream that starts with a
null-free content block, its terminator, and anything after: it succeeds,
returns 1, and consumes exactly the content and the terminator. -/
theorem vpkReadString_append (cs rest : List Nat) (maxlen : Nat)
    (h0 : 0 ∉ cs) (hlen : cs.length < maxlen) :
    vpkReadString maxlen (cs ++ 0 :: rest) = .ok (1, cs, rest) := by
  induction cs generalizing maxlen with
  | nil =>
    cases maxlen with
    | zero => simp at hlen
    | succ m => simp [vpkReadString]
  | cons c cs ih =>
    cases maxlen with
    | zero => simp at hlen
    | succ m =>
      have hc : c ≠ 0 := by
        intro h; exact h0 (by simp [h])
      have h0' : 0 ∉ cs := by
        intro h; exact h0 (by simp [h])
      have hlen' : cs.length < m := by simp at hlen; omega
      simp [vpkReadString, hc, ih m h0' hlen']

/-- When the next `maxlen` bytes of the stream exist and none of them is a
null, the bounded string reader exhausts its buffer and fails (the
`return 0` at line 52). -/
theorem vpkReadString_noNull (maxlen : Nat) (s : List Nat)
    (hnz : ∀ b ∈ s.take maxlen, b ≠ 0) (hlen : maxlen ≤ s.length) :
    vpkReadString maxlen s = .error .bufferTooSmall := by
  induction maxlen generalizing s with
  | zero => simp [vpkReadString]
  | succ m ih =>
    cases s with
    | nil => simp at hlen
    | cons c t =>
      have hc : c ≠ 0 := hnz c (by simp)
      have hnz' : ∀ b ∈ t.take m, b ≠ 0 := by
        intro b hb
        exact hnz b (by simp [List.take_succ_cons]; exact Or.inr hb)
      have hlen' : m ≤ t.length := by simp at hlen; omega
      simp [vpkReadString, hc, ih t hnz' hlen']

/-- Reading an `n`-byte little-endian field positioned at the front of the
stream consumes exactly its bytes. -/
theorem readLE_append (n : Nat) (bs r : List Nat) (h : bs.length = n) :
    readLE n (bs ++ r) = .ok (leVal bs, r) := by
  subst h
  unfold readLE
  rw [if_pos (by simp)]
  rw [List.take_left, List.drop_left]

/-- Inversion for a successful `readBytes`. -/
theorem readBytes_ok {n : Nat} {s bs rest : List Nat}
    (h : readBytes n s = .ok (bs, rest)) :
    n ≤ s.length ∧ bs = s.take n ∧ rest = s.drop n := by
  unfold readBytes at h
  split at h
  · simp at h
    exact ⟨by assumption, h.1.symm, h.2.symm⟩
  · simp at h

/-- Inversion for a successful `readLE`. -/
theorem readLE_ok {n : Nat} {s : List Nat} {v : Nat} {rest : List Nat}
    (h : readLE n s = .ok (v, rest)) :
    n ≤ s.length ∧ v = leVal (s.take n) ∧ rest = s.drop n := by
  unfold readLE at h
  split at h
  · simp at h
    exact ⟨by assumption, h.1.symm, h.2.symm⟩
  · simp at h

/-- C9: for every stream and every entry-loader fuel, opening with write
intent fails with the read-only error, the file is not claimed, and (since
the result is the same for every stream, including the empty one, on which
any read would have failed with an I/O error instead) the rejection happens
before any byte is read: line 140 precedes the first `__PHYSFS_readAll`. -/
theorem vpk_C9 (s : List Nat) (fuel : Nat) :
    VPK_openArchiveTree true fuel s = (false, some (.error .readOnly)) ∧
      VPK_openArchiveFlat true s = (false, .error .readOnly) := by
  constructor <;> rfl

/-- C6: a stream of at least four bytes whose little-endian 32-bit magic is
not 0x55AA1234 makes the open fail with the unsupported ("format mismatch")
classification — not corrupt — and the claimed flag stays unset, for both
embedded variants of the archiver. -/
theorem vpk_C6 (s : List Nat) (fuel : Nat) (hlen : 4 ≤ s.length)
    (hmagic : leVal (s.take 4) ≠ VPK_SIG) :
    VPK_openArchiveTree false fuel s = (false, some (.error .unsupported)) ∧
      VPK_openArchiveFlat false s = (false, .error .unsupported) := by
  have hh : vpkCheckHeader false s = (false, .error .unsupported) := by
    simp [vpkCheckHeader, readLE, hlen, hmagic]
  constructor <;> simp [VPK_openArchiveTree, VPK_openArchiveFlat, hh]

/-- Witness for C6 at the all-zero four-byte stream. -/
theorem vpk_C6_witness :
    4 ≤ [0, 0, 0, 0].length ∧ leVal [0, 0, 0, 0] ≠ VPK_SIG ∧
      (VPK_openArchiveTree false 0 [0, 0, 0, 0] = (false, some (.error .unsupported)) ∧
        VPK_openArchiveFlat false [0, 0, 0, 0] = (false, .error .unsupported)) :=
  ⟨by decide, by decide, vpk_C6 [0, 0, 0, 0] 0 (by decide) (by decide)⟩

/-- C3 is false as stated: on a stream whose magic matches but whose
version field is 3, the open fails unsupported with the claimed flag still
false — `*claimed = 1` (line 152) only runs after the version check (lines
147-150), so the dispatcher remains free to try other handlers. -/
theorem vpk_C3_counterexample :
    (VPK_openArchiveTree false 1 ([0x34, 0x12, 0xAA, 0x55] ++ [3, 0, 0, 0])).fst = false ∧
      VPK_openArchiveTree false 1 ([0x34, 0x12, 0xAA, 0x55] ++ [3, 0, 0, 0])
        = (false, some (.error .unsupported)) :=
  ⟨rfl, rfl⟩

/-- C3 (amended): the claim happens only after both the magic and the
version checks pass; with a matching magic and a version that is neither 1
nor 2 the open fails unsupported with the claimed flag still unset. -/
theorem vpk_C3 (s : List Nat) (fuel : Nat) (hlen : 8 ≤ s.length)
    (hmagic : leVal (s.take 4) = VPK_SIG)
    (hv1 : leVal (byteSlice s 4 4) ≠ 1) (hv2 : leVal (byteSlice s 4 4) ≠ 2) :
    VPK_openArchiveTree false fuel s = (false, some (.error .unsupported)) ∧
      VPK_openArchiveFlat false s = (false, .error .unsupported) := by
  have hh : vpkCheckHeader false s = (false, .error .unsupported) := by
    have r1 : readLE 4 s = .ok (leVal (List.take 4 s), List.drop 4 s) := by
      unfold readLE; rw [if_pos (by omega)]
    have r2 : readLE 4 (List.drop 4 s) = .ok (leVal (byteSlice s 4 4), List.drop 8 s) := by
      unfold readLE
      rw [if_pos (by simp; omega), List.drop_drop]
      rfl
    simp [vpkCheckHeader, r1, r2, hmagic, hv1, hv2]
  constructor <;> simp [VPK_openArchiveTree, VPK_openArchiveFlat, hh]

/-- Witness for C3's amended statement at magic-ok, version 3. -/
theorem vpk_C3_witness :
    8 ≤ ([0x34, 0x12, 0xAA, 0x55] ++ [3, 0, 0, 0]).length ∧
      leVal (([0x34, 0x12, 0xAA, 0x55] ++ [3, 0, 0, 0]).take 4) = VPK_SIG ∧
      leVal (byteSlice ([0x34, 0x12, 0xAA, 0x55] ++ [3, 0, 0, 0]) 4 4) ≠ 1 ∧
      (VPK_openArchiveTree false 0 ([0x34, 0x12, 0xAA, 0x55] ++ [3, 0, 0, 0])
          = (false, some (.error .unsupported)) ∧
        VPK_openArchiveFlat false ([0x34, 0x12, 0xAA, 0x55] ++ [3, 0, 0, 0])
          = (false, .error .unsupported)) :=
  ⟨by decide, by decide, by decide,
    vpk_C3 ([0x34, 0x12, 0xAA, 0x55] ++ [3, 0, 0, 0]) 0 (by decide) (by decide)
      (by decide) (by decide)⟩

/-- C4 is false as stated: reading the two-content-byte string "ab" (bytes
97, 98, then the terminator) consumes three bytes but returns the constant
1, not 2 + 1. -/
theorem vpk_C4_counterexample :
    vpkReadString 256 [97, 98, 0] = .ok (1, [97, 98], []) ∧
      (1 : Nat) ≠ [97, 98].length + 1 :=
  ⟨rfl, by decide⟩

/-- C4 (amended): on success the bounded string reader returns the constant
1 (a success flag, not a byte count), having consumed exactly the n content
bytes plus the null terminator — n + 1 bytes — from the stream. -/
theorem vpk_C4 (maxlen : Nat) (s : List Nat) (r : Nat) (cs rest : List Nat)
    (h : vpkReadString maxlen s = .ok (r, cs, rest)) :
    r = 1 ∧ s = cs ++ 0 :: rest ∧ s.length = (cs.length + 1) + rest.length ∧
      0 ∉ cs ∧ cs.length < maxlen := by
  obtain ⟨h1, h2, h3, h4⟩ := vpkReadString_ok maxlen s r cs rest h
  subst h2
  exact ⟨h1, rfl, by simp; omega, h3, h4⟩

/-- Witness for C4's amended statement on the string "hi". -/
theorem vpk_C4_witness :
    vpkReadString 256 [104, 105, 0, 9] = .ok (1, [104, 105], [9]) ∧
      (1 = 1 ∧ [104, 105, 0, 9] = [104, 105] ++ 0 :: [9] ∧
        [104, 105, 0, 9].length = ([104, 105].length + 1) + [9].length ∧
        0 ∉ [104, 105] ∧ [104, 105].length < 256) :=
  ⟨rfl, vpk_C4 256 [104, 105, 0, 9] 1 [104, 105] [9] rfl⟩

/-- C2 is false as stated: with a valid magic and version, a directory byte
length of 18 — a multiple of the claimed 18-byte record size — is rejected
as corrupt, because the code (line 161) actually requires a multiple of 64
(the flat 56+4+4 record size). -/
theorem vpk_C2_counterexample :
    vpkCheckHeader false
        ([0x34, 0x12, 0xAA, 0x55] ++ [1, 0, 0, 0] ++ [16, 0, 0, 0] ++ [18, 0, 0, 0])
      = (true, .error .corrupt) ∧ 18 % 18 = 0 :=
  ⟨rfl, rfl⟩

/-- C2 (amended): for every accepted magic and version, the header phase
fails corrupt exactly when the directory byte length is not a multiple of
64 (the 56+4+4 flat record size, per lines 161-162 and the file's header
comment), and when it is a multiple the expected entry count is the length
divided by 64. -/
theorem vpk_C2 (s : List Nat) (hlen : 16 ≤ s.length)
    (hmagic : leVal (s.take 4) = VPK_SIG)
    (hver : leVal (byteSlice s 4 4) = 1 ∨ leVal (byteSlice s 4 4) = 2) :
    (vpkCheckHeader false s = (true, .error .corrupt) ↔
        leVal (byteSlice s 12 4) % 64 ≠ 0) ∧
      (leVal (byteSlice s 12 4) % 64 = 0 →
        vpkCheckHeader false s
          = (true, .ok (leVal (byteSlice s 8 4), leVal (byteSlice s 12 4) / 64))) := by
  have r1 : readLE 4 s = .ok (leVal (List.take 4 s), List.drop 4 s) := by
    unfold readLE; rw [if_pos (by omega)]
  have r2 : readLE 4 (List.drop 4 s) = .ok (leVal (byteSlice s 4 4), List.drop 8 s) := by
    unfold readLE
    rw [if_pos (by simp; omega), List.drop_drop]
    rfl
  have r3 : readLE 4 (List.drop 8 s) = .ok (leVal (byteSlice s 8 4), List.drop 12 s) := by
    unfold readLE
    rw [if_pos (by simp; omega), List.drop_drop]
    rfl
  have r4 : readLE 4 (List.drop 12 s) = .ok (leVal (byteSlice s 12 4), List.drop 16 s) := by
    unfold readLE
    rw [if_pos (by simp; omega), List.drop_drop]
    rfl
  have hstep : vpkCheckHeader false s =
      if leVal (byteSlice s 12 4) % 64 ≠ 0 then (true, .error .corrupt)
      else (true, .ok (leVal (byteSlice s 8 4), leVal (byteSlice s 12 4) / 64)) := by
    rcases hver with hv | hv <;>
      simp [vpkCheckHeader, r1, r2, r3, r4, hmagic, hv]
  by_cases hc : leVal (byteSlice s 12 4) % 64 = 0
  · rw [hstep]
    refine ⟨?_, fun _ => by simp [hc]⟩
    simp [hc]
  · rw [hstep]
    refine ⟨?_, fun h => absurd h hc⟩
    simp [hc]

/-- Witness for C2's amended statement: directory length 64 passes the
check with one expected record. -/
theorem vpk_C2_witness :
    16 ≤ ([0x34, 0x12, 0xAA, 0x55] ++ [1, 0, 0, 0] ++ [16, 0, 0, 0] ++ [64, 0, 0, 0]).length ∧
      ((vpkCheckHeader false
            ([0x34, 0x12, 0xAA, 0x55] ++ [1, 0, 0, 0] ++ [16, 0, 0, 0] ++ [64, 0, 0, 0])
          = (true, .error .corrupt) ↔
          leVal (byteSlice
            ([0x34, 0x12, 0xAA, 0x55] ++ [1, 0, 0, 0] ++ [16, 0, 0, 0] ++ [64, 0, 0, 0]) 12 4)
              % 64 ≠ 0) ∧
        (leVal (byteSlice
            ([0x34, 0x12, 0xAA, 0x55] ++ [1, 0, 0, 0] ++ [16, 0, 0, 0] ++ [64, 0, 0, 0]) 12 4)
              % 64 = 0 →
          vpkCheckHeader false
              ([0x34, 0x12, 0xAA, 0x55] ++ [1, 0, 0, 0] ++ [16, 0, 0, 0] ++ [64, 0, 0, 0])
            = (true, .ok (leVal (byteSlice
                ([0x34, 0x12, 0xAA, 0x55] ++ [1, 0, 0, 0] ++ [16, 0, 0, 0] ++ [64, 0, 0, 0]) 8 4),
              leVal (byteSlice
                ([0x34, 0x12, 0xAA, 0x55] ++ [1, 0, 0, 0] ++ [16, 0, 0, 0] ++ [64, 0, 0, 0]) 12 4)
                / 64)))) :=
  ⟨by decide,
    vpk_C2 ([0x34, 0x12, 0xAA, 0x55] ++ [1, 0, 0, 0] ++ [16, 0, 0, 0] ++ [64, 0, 0, 0])
      (by decide) (by decide) (by decide)⟩

/-- C5: at any point where the tree walker has resolved a path — any
extension and directory already in hand and a well-formed non-empty base
name next on the stream — an 18-byte record whose 16-bit terminator field
decodes to anything but 0xFFFF makes the decode fail corrupt, whatever the
crc, preload, archive-index, offset and size field bytes are. -/
theorem vpk_C5 (ext dir name : List Nat) (fuel : Nat)
    (crc pre arch off sz : List Nat) (t0 t1 : Nat) (rest : List Nat)
    (hname : name ≠ []) (hnz : 0 ∉ name) (hlen : name.length < 256)
    (hcrc : crc.length = 4) (hpre : pre.length = 2) (harch : arch.length = 2)
    (hoff : off.length = 4) (hsz : sz.length = 4)
    (hterm : leVal [t0, t1] ≠ 0xFFFF) :
    vpkLoadEntriesNames ext dir (fuel + 1)
        (name ++ 0 :: (crc ++ (pre ++ (arch ++ (off ++ (sz ++ t0 :: t1 :: rest))))))
      = some (.error .corrupt) := by
  have e0 := vpkReadString_append name
    (crc ++ (pre ++ (arch ++ (off ++ (sz ++ t0 :: t1 :: rest))))) 256 hnz hlen
  have e1 := readLE_append 4 crc (pre ++ (arch ++ (off ++ (sz ++ t0 :: t1 :: rest)))) hcrc
  have e2 := readLE_append 2 pre (arch ++ (off ++ (sz ++ t0 :: t1 :: rest))) hpre
  have e3 := readLE_append 2 arch (off ++ (sz ++ t0 :: t1 :: rest)) harch
  have e4 := readLE_append 4 off (sz ++ t0 :: t1 :: rest) hoff
  have e5 := readLE_append 4 sz (t0 :: t1 :: rest) hsz
  have e6 : readLE 2 (t0 :: t1 :: rest) = .ok (leVal [t0, t1], rest) := by
    simpa using readLE_append 2 [t0, t1] rest rfl
  rw [vpkLoadEntriesNames, e0]
  simp only [e1, e2, e3, e4, e5, e6, hname, hterm]
  simp
  exact fun h => absurd h hterm

/-- Witness for C5: one-byte extension, directory and name, all record
fields zero, terminator bytes (0, 0). -/
theorem vpk_C5_witness :
    ([99] : List Nat) ≠ [] ∧ 0 ∉ ([99] : List Nat) ∧ ([99] : List Nat).length < 256 ∧
      leVal [0, 0] ≠ 0xFFFF ∧
      vpkLoadEntriesNames [101] [100] 1
          ([99] ++ 0 :: ([1, 2, 3, 4] ++ ([5, 6] ++ ([7, 8] ++ ([9, 10, 11, 12] ++
            ([13, 14, 15, 16] ++ 0 :: 0 :: []))))))
        = some (.error .corrupt) :=
  ⟨by decide, by decide, by decide, by decide,
    vpk_C5 [101] [100] [99] 0 [1, 2, 3, 4] [5, 6] [7, 8] [9, 10, 11, 12] [13, 14, 15, 16]
      0 0 [] (by decide) (by decide) (by decide) (by decide) (by decide) (by decide)
      (by decide) (by decide) (by decide)⟩

/-- C7: a stream position whose next `maxlen` bytes exist and contain no
null makes the bounded string reader fail (capacity exhausted, the
`return 0` at line 52), and when the walker meets such a 256-byte null-free
segment at a string position the whole decode fails rather than reading a
partial string. -/
theorem vpk_C7 (maxlen : Nat) (s t : List Nat) (fuel : Nat)
    (hs : ∀ b ∈ s.take maxlen, b ≠ 0) (hslen : maxlen ≤ s.length)
    (ht : ∀ b ∈ t.take 256, b ≠ 0) (htlen : 256 ≤ t.length) :
    vpkReadString maxlen s = .error .bufferTooSmall ∧
      vpkLoadEntriesTree (fuel + 1) t = some (.error .bufferTooSmall) := by
  refine ⟨vpkReadString_noNull maxlen s hs hslen, ?_⟩
  have h := vpkReadString_noNull 256 t ht htlen
  simp [vpkLoadEntriesTree, h]

set_option maxRecDepth 4000 in
/-- Witness for C7: 256 bytes of value 1, exactly filling the buffer with
no terminator. -/
theorem vpk_C7_witness :
    (∀ b ∈ (List.replicate 256 1).take 256, b ≠ 0) ∧
      256 ≤ (List.replicate 256 1).length ∧
      (vpkReadString 256 (List.replicate 256 1) = .error .bufferTooSmall ∧
        vpkLoadEntriesTree 1 (List.replicate 256 1) = some (.error .bufferTooSmall)) :=
  ⟨by decide, by decide,
    vpk_C7 256 (List.replicate 256 1) (List.replicate 256 1) 0 (by decide) (by decide)
      (by decide) (by decide)⟩

/-- C8: whenever the header phase has succeeded (handle created) and entry
loading fails with any error, the open returns that failure and no handle —
the registry created at line 167 is abandoned (line 172), never returned
partially populated. -/
theorem vpk_C8 (s : List Nat) (fuel pos count : Nat) (e : VpkErr)
    (hh : vpkCheckHeader false s = (true, .ok (pos, count)))
    (hseek : pos ≤ s.length)
    (hload : vpkLoadEntriesTree fuel (s.drop pos) = some (.error e)) :
    VPK_openArchiveTree false fuel s = (true, some (.error e)) := by
  simp [VPK_openArchiveTree, hh, hseek, hload]

/-- Byte stream for C8's witness: valid header (directory length 64),
"txt"/"models/props"/"chair" tree, record with terminator 0x0000. -/
def vpkC8Stream : List Nat :=
  [0x34, 0x12, 0xAA, 0x55] ++ [1, 0, 0, 0] ++ [16, 0, 0, 0] ++ [64, 0, 0, 0] ++
    strBytes "txt" ++ [0] ++ strBytes "models/props" ++ [0] ++ strBytes "chair" ++ [0] ++
    [0, 0, 0, 0] ++ [0, 0] ++ [255, 255] ++ [128, 0, 0, 0] ++ [64, 0, 0, 0] ++ [0, 0] ++
    [0] ++ [0] ++ [0]

/-- Witness for C8 on a concrete archive whose first record has a zero
terminator: the loader fails corrupt and the open returns no handle. -/
theorem vpk_C8_witness :
    vpkCheckHeader false vpkC8Stream = (true, .ok (16, 1)) ∧
      16 ≤ vpkC8Stream.length ∧
      vpkLoadEntriesTree 10 (vpkC8Stream.drop 16) = some (.error .corrupt) ∧
      VPK_openArchiveTree false 10 vpkC8Stream = (true, some (.error .corrupt)) :=
  ⟨by rfl, by decide, by rfl,
    vpk_C8 vpkC8Stream 10 16 1 .corrupt (by rfl) (by decide) (by rfl)⟩

/-- Byte stream of C1's scenario: header (magic, version 1, directory
offset 16, directory length 64 — the length must be a multiple of 64 or
line 161 rejects the archive before the tree is ever read), the tree triple
"txt" / "models/props" / "chair", its record (crc 0, preload 0,
archive index -1 i.e. bytes 255 255, offset 128, size 64, terminator
0xFFFF), and the three empty-string sentinels. -/
def vpkC1Stream : List Nat :=
  [0x34, 0x12, 0xAA, 0x55] ++ [1, 0, 0, 0] ++ [16, 0, 0, 0] ++ [64, 0, 0, 0] ++
    strBytes "txt" ++ [0] ++ strBytes "models/props" ++ [0] ++ strBytes "chair" ++ [0] ++
    [0, 0, 0, 0] ++ [0, 0] ++ [255, 255] ++ [128, 0, 0, 0] ++ [64, 0, 0, 0] ++ [255, 255] ++
    [0] ++ [0] ++ [0]

/-- C1, evaluated at its scenario: opening succeeds and the archive is
claimed, but the returned registry is empty — the tree loader validates the
record and assembles exactly the path "models/props/chair.txt" (third
conjunct) with offset bytes decoding to 128 and size bytes to 64 (last two
conjuncts), yet never calls `UNPK_addEntry`, so the entry the claim (and
spec §4.4) expects is not registered.  This contradicts the decoder's
purpose and documented intent: a bug in the code, not in the claim. -/
theorem vpk_C1 :
    VPK_openArchiveTree false 100 vpkC1Stream = (true, some (.ok [])) ∧
      vpkAssemblePath (strBytes "models/props") (strBytes "chair") (strBytes "txt")
        = strBytes "models/props/chair.txt" ∧
      leVal [128, 0, 0, 0] = 128 ∧ leVal [64, 0, 0, 0] = 64 :=
  ⟨by rfl, by rfl, by rfl, by rfl⟩

/-- Shifting the flat-record index: record `i` of the stream with its first
64 bytes dropped is record `i + 1` of the original stream. -/
theorem vpkFlatRecordAt_drop (s : List Nat) (i : Nat) :
    vpkFlatRecordAt (s.drop 64) i = vpkFlatRecordAt s (i + 1) := by
  have h1 : 64 + 64 * i = 64 * (i + 1) := by ring
  have h2 : 64 + (64 * i + 56) = 64 * (i + 1) + 56 := by ring
  have h3 : 64 + (64 * i + 60) = 64 * (i + 1) + 60 := by ring
  simp [vpkFlatRecordAt, byteSlice, List.drop_drop, h1, h2, h3]

/-- Unfolding one record of the flat closed form. -/
theorem vpkFlatSpec_succ (count : Nat) (s : List Nat) :
    vpkFlatSpec (count + 1) s
      = vpkFlatRecordAt s 0 :: vpkFlatSpec count (s.drop 64) := by
  simp only [vpkFlatSpec, List.range_succ_eq_map, List.map_cons, List.map_map]
  congr 1
  apply List.map_congr_left
  intro i _
  simp [Function.comp, vpkFlatRecordAt_drop]

/-- Main inversion for the flat loader: a successful run of `count`
iterations needs (and consumes) exactly `64 * count` bytes and appends the
closed-form record list to the accumulated registry. -/
theorem vpkLoadEntriesFlat_ok (count : Nat) :
    ∀ (s : List Nat) (acc es : List VpkEntry) (rest : List Nat),
      vpkLoadEntriesFlat count s acc = .ok (es, rest) →
      64 * count ≤ s.length ∧ es = acc ++ vpkFlatSpec count s ∧
        rest = s.drop (64 * count) := by
  induction count with
  | zero =>
    intro s acc es rest h
    simp [vpkLoadEntriesFlat] at h
    obtain ⟨h1, h2⟩ := h
    subst h1; subst h2
    simp [vpkFlatSpec]
  | succ n ih =>
    intro s acc es rest h
    rcases hb : readBytes 56 s with e | ⟨name, s1⟩
    · simp [vpkLoadEntriesFlat, hb] at h
    rcases hp : readLE 4 s1 with e | ⟨pos, s2⟩
    · simp [vpkLoadEntriesFlat, hb, hp] at h
    rcases hz : readLE 4 s2 with e | ⟨size, s3⟩
    · simp [vpkLoadEntriesFlat, hb, hp, hz] at h
    simp only [vpkLoadEntriesFlat, hb, hp, hz] at h
    obtain ⟨hb1, hb2, hb3⟩ := readBytes_ok hb
    obtain ⟨hp1, hp2, hp3⟩ := readLE_ok hp
    obtain ⟨hz1, hz2, hz3⟩ := readLE_ok hz
    subst hb2; subst hb3; subst hp2; subst hp3; subst hz2; subst hz3
    obtain ⟨g1, g2, g3⟩ := ih _ _ es rest h
    have hd : ((s.drop 56).drop 4).drop 4 = s.drop 64 := by
      simp [List.drop_drop]
    rw [hd] at g1 g2 g3
    simp at hb1 hp1 hz1
    refine ⟨?_, ?_, ?_⟩
    · simp at g1 ⊢
      omega
    · rw [g2, vpkFlatSpec_succ]
      simp [vpkFlatRecordAt, byteSlice, List.drop_drop]
    · rw [g3, List.drop_drop]
      congr 1
      ring

/-- C10: whenever the flat loader succeeds starting from the empty
registry, it has registered exactly `count` entries, in stream order, the
`i`-th taken from the 64-byte record at offset `64*i` — a 56-byte name
field used verbatim as the path (as a C string, with no
extension/directory/name assembly) followed by little-endian 4-byte
position and 4-byte size — and it has consumed exactly `64 * count`
bytes. -/
theorem vpk_C10 (count : Nat) (s : List Nat) (es : List VpkEntry)
    (rest : List Nat) (h : vpkLoadEntriesFlat count s [] = .ok (es, rest)) :
    es = vpkFlatSpec count s ∧ es.length = count ∧ rest = s.drop (64 * count) := by
  obtain ⟨g1, g2, g3⟩ := vpkLoadEntriesFlat_ok count s [] es rest h
  refine ⟨by simpa using g2, ?_, g3⟩
  rw [g2]
  simp [vpkFlatSpec]

/-- Stream for C10's witness: one 64-byte record, name field of 56 "A"
bytes, position 7, size 9. -/
def vpkC10Stream : List Nat :=
  List.replicate 56 65 ++ [7, 0, 0, 0] ++ [9, 0, 0, 0]

/-- Witness for C10 on its one-record stream. -/
theorem vpk_C10_witness :
    vpkLoadEntriesFlat 1 vpkC10Stream [] = .ok ([⟨List.replicate 56 65, 7, 9⟩], []) ∧
      (([⟨List.replicate 56 65, 7, 9⟩] : List VpkEntry) = vpkFlatSpec 1 vpkC10Stream ∧
        ([⟨List.replicate 56 65, 7, 9⟩] : List VpkEntry).length = 1 ∧
        ([] : List Nat) = vpkC10Stream.drop (64 * 1)) := by
  have h : vpkLoadEntriesFlat 1 vpkC10Stream []
      = .ok ([⟨List.replicate 56 65, 7, 9⟩], []) := by rfl
  exact ⟨h, vpk_C10 1 vpkC10Stream [⟨List.replicate 56 65, 7, 9⟩] [] h⟩
